import Mathlib

/-!
Verification development for the task-manager service
(app/models.py, app/schemas.py, app/crud.py, app/main.py).

Modelling conventions:
* Timestamps (`datetime`) are modelled as naturals: only their total order
  matters to the code.
* A database session plus the `tasks` table is modelled as a `List Task`
  (the rows, in insertion order); SQLAlchemy query chains become list
  filters in the order the source writes them.
* The `updated_at` column is declared in models.py with
  `onupdate=datetime.utcnow`, so the store refreshes it whenever a commit
  actually issues an UPDATE for the row, i.e. when some column value
  changed; `touch` below models exactly that dirty check.
-/

namespace TaskApp

/-- A row of the `tasks` table (app/models.py, class `Task`). -/
structure Task where
  id : Int
  title : String
  description : Option String
  status : String
  priority : Int
  is_active : Bool
  due_date : Option Nat
  created_at : Nat
  updated_at : Nat
deriving DecidableEq, Repr

/-- The `tasks` table: its rows in insertion order. -/
abbrev Store := List Task

/-- crud.get_task: first row with the given id that is active. -/
def get_task (db : Store) (task_id : Int) : Option Task :=
  (db.filter (fun t => t.id == task_id && t.is_active)).head?

/-- crud.get_tasks: active rows, after `offset(skip).limit(limit)`. -/
def get_tasks (db : Store) (skip limit : Nat) : List Task :=
  ((db.filter (fun t => t.is_active)).drop skip).take limit

/-- crud.get_tasks_by_status: active rows whose status equals the argument. -/
def get_tasks_by_status (db : Store) (s : String) : List Task :=
  db.filter (fun t => t.status == s && t.is_active)

/-- The SQL comparison `due_date < now`: false when due_date is NULL. -/
def due_date_lt (t : Task) (now : Nat) : Bool :=
  match t.due_date with
  | some d => decide (d < now)
  | none => false

/-- crud.get_overdue_tasks: rows with `due_date != None`,
`due_date < utcnow()`, `is_active == True`, `status != "done"`. -/
def get_overdue_tasks (db : Store) (now : Nat) : List Task :=
  db.filter (fun t =>
    t.due_date.isSome && due_date_lt t now && t.is_active && t.status != "done")

/-- schemas.TaskUpdate (app/schemas.py lines 15–21): every field optional,
`none` meaning the field is absent from the patch payload (pydantic
`model_dump(exclude_unset=True)` omits it).  The schema declares the fields
with plain `Optional[...] = None` and no `Field` constraint.  For the
nullable columns `description` and `due_date` the carried value is itself an
`Option`; explicitly setting a non-nullable column to null is rejected by
the store and outside the modelled state space. -/
structure TaskUpdate where
  title : Option String
  description : Option (Option String)
  status : Option String
  priority : Option Int
  due_date : Option (Option Nat)
  is_active : Option Bool
deriving DecidableEq, Repr

/-- The `setattr` loop of crud.update_task: apply exactly the fields present
in `model_dump(exclude_unset=True)`. -/
def applyFields (t0 : Task) (u : TaskUpdate) : Task :=
  let t1 := match u.title with
    | some v => { t0 with title := v }
    | none => t0
  let t2 := match u.description with
    | some v => { t1 with description := v }
    | none => t1
  let t3 := match u.status with
    | some v => { t2 with status := v }
    | none => t2
  let t4 := match u.priority with
    | some v => { t3 with priority := v }
    | none => t3
  let t5 := match u.due_date with
    | some v => { t4 with due_date := v }
    | none => t4
  match u.is_active with
    | some v => { t5 with is_active := v }
    | none => t5

/-- The commit step: if some column changed, the UPDATE statement fires the
`onupdate=datetime.utcnow` hook of models.py and refreshes `updated_at`;
otherwise no UPDATE is issued and the row is untouched. -/
def touch (old new : Task) (now : Nat) : Task :=
  if new = old then old else { new with updated_at := now }

/-- crud.update_task applied to the fetched row. -/
def update_task (db_task : Task) (task_in : TaskUpdate) (now : Nat) : Task :=
  touch db_task (applyFields db_task task_in) now

/-- crud.soft_delete_task applied to the fetched row:
`db_task.is_active = False; db.commit()`. -/
def soft_delete_task (db_task : Task) (now : Nat) : Task :=
  touch db_task { db_task with is_active := false } now

/-- crud.complete_task applied to the fetched row:
`db_task.status = "done"; db.commit()`. -/
def complete_task (db_task : Task) (now : Nat) : Task :=
  touch db_task { db_task with status := "done" } now

/-- Committing a mutation of the row fetched by id: the UPDATE is keyed on
the primary key, so it rewrites exactly the rows carrying that id. -/
def updateRow (db : Store) (i : Int) (f : Task → Task) : Store :=
  db.map (fun t => if t.id == i then f t else t)

/-- The three-value status enumeration of schemas.TaskBase
(`pattern="^(pending|in_progress|done)$"`). -/
def validStatus (s : String) : Bool :=
  s == "pending" || s == "in_progress" || s == "done"

/-- schemas.TaskCreate = TaskBase: creation payload (already well-typed). -/
structure TaskCreate where
  title : String
  description : Option String
  status : String
  priority : Int
  due_date : Option Nat
deriving DecidableEq, Repr

/-- Pydantic validation of a TaskCreate payload, from the `Field`
constraints of schemas.TaskBase: title length 3–255, status matching the
enumeration pattern, priority between 1 and 5.  On failure the name of the
offending field is reported and the request never reaches crud. -/
def validate_TaskCreate (c : TaskCreate) : Except String TaskCreate :=
  if !(3 ≤ c.title.length && c.title.length ≤ 255) then .error "title"
  else if !(validStatus c.status) then .error "status"
  else if !(1 ≤ c.priority && c.priority ≤ 5) then .error "priority"
  else .ok c

/-- Pydantic validation of a TaskUpdate payload.  schemas.TaskUpdate
declares its fields as plain `Optional[...] = None` with no `Field`
constraint, so every well-typed payload is accepted. -/
def validate_TaskUpdate (u : TaskUpdate) : Except String TaskUpdate :=
  .ok u

/-- The database: the `tasks` table plus the autoincrement counter for the
primary key (SQLite assigns 1, 2, 3, … and never reuses a value). -/
structure DB where
  store : Store
  next_id : Int
deriving DecidableEq, Repr

/-- The empty database right after `Base.metadata.create_all`. -/
def dbInit : DB := ⟨[], 1⟩

/-- crud.create_task behind POST /tasks: `models.Task(**task_in.model_dump())`
takes title, description, status, priority and due_date from the payload;
the store fills id (autoincrement), `is_active=True` and the two
timestamp defaults.  A payload rejected by pydantic never reaches crud and
leaves the database unchanged. -/
def applyCreate (db : DB) (c : TaskCreate) (now : Nat) : DB :=
  match validate_TaskCreate c with
  | .error _ => db
  | .ok c =>
    ⟨db.store ++ [⟨db.next_id, c.title, c.description, c.status, c.priority,
        true, c.due_date, now, now⟩],
     db.next_id + 1⟩

/-- The four mutating requests of the HTTP surface (app/main.py): POST
/tasks, PUT /tasks/id, PATCH /tasks/id/complete, DELETE /tasks/id. -/
inductive Op where
  | create (c : TaskCreate) (now : Nat)
  | update (id : Int) (u : TaskUpdate) (now : Nat)
  | complete (id : Int) (now : Nat)
  | softDelete (id : Int) (now : Nat)
deriving DecidableEq, Repr

/-- One request through the router (app/main.py): the three row-mutating
handlers first fetch the row through the active-filtered crud.get_task and
answer 404 — leaving the database unchanged — when it returns nothing. -/
def stepOp (db : DB) (op : Op) : DB :=
  match op with
  | .create c now => applyCreate db c now
  | .update i u now =>
    match validate_TaskUpdate u with
    | .error _ => db
    | .ok u =>
      match get_task db.store i with
      | none => db
      | some _ => ⟨updateRow db.store i (fun t => update_task t u now), db.next_id⟩
  | .complete i now =>
    match get_task db.store i with
    | none => db
    | some _ => ⟨updateRow db.store i (fun t => complete_task t now), db.next_id⟩
  | .softDelete i now =>
    match get_task db.store i with
    | none => db
    | some _ => ⟨updateRow db.store i (fun t => soft_delete_task t now), db.next_id⟩

/-- A sequence of requests through the exposed interface. -/
def runOps (db : DB) (ops : List Op) : DB :=
  ops.foldl stepOp db

/-- An update request whose payload keeps the status field inside the
three-value enumeration when it sets it at all; every other request
qualifies unconditionally. -/
def GoodOp : Op → Bool
  | Op.update _ u _ =>
    match u.status with
    | some s => validStatus s
    | none => true
  | _ => true

/-! ### The router (app/main.py) -/

/-- An HTTP response of this service. -/
inductive Response where
  | okJson
  | okList (body : List Task)
  | okTask (t : Task)
  | clientError (code : Nat)
  | serverError
deriving DecidableEq, Repr

/-- Python attribute access `.HTTP_400_BAD_REQUEST` on the value bound to
the name `status` inside the handler `tasks_by_status`.  In main.py the
handler parameter `status: str` shadows the module `status` imported from
fastapi, so the lookup runs on a `str` value, which has no attribute of
that name: it yields no status code and raises `AttributeError`. -/
def str_HTTP_400_BAD_REQUEST (_s : String) : Option Nat :=
  none

/-- The handler of GET /tasks/status/\x7bstatus\x7d (main.py lines 53–57).
An `HTTPException` whose construction succeeds becomes its client error
code; the `AttributeError` raised while evaluating the status code is
unhandled and surfaces as a 500 server error. -/
def tasks_by_status (statusArg : String) (db : Store) : Response :=
  if !(["pending", "in_progress", "done"].contains statusArg) then
    match str_HTTP_400_BAD_REQUEST statusArg with
    | some code => Response.clientError code
    | none => Response.serverError
  else Response.okList (get_tasks_by_status db statusArg)

/-- A decimal digit sequence read as a number; empty or non-digit input is
rejected. -/
def parseNatStr (cs : List Char) : Option Nat :=
  if cs.isEmpty then none
  else if cs.all (fun c => c.isDigit) then
    some (cs.foldl (fun n c => n * 10 + (c.toNat - 48)) 0)
  else none

/-- Python `int(...)` as pydantic applies it to the `task_id: int` path
parameter: an optional sign followed by decimal digits; anything else (such
as the path segment "overdue") fails validation with a 422 response. -/
def parse_int (s : String) : Option Int :=
  match s.data with
  | '-' :: rest => (parseNatStr rest).map (fun n => -(n : Int))
  | cs => (parseNatStr cs).map (fun n => (n : Int))

/-- A segment of a route path template: a literal or a path parameter
(Starlette matches a parameter against any single segment). -/
inductive Seg where
  | lit (s : String)
  | param
deriving DecidableEq, Repr

/-- Whether a path template matches a concrete path, segment by segment. -/
def segMatch : List Seg → List String → Bool
  | [], [] => true
  | Seg.lit l :: tpl, s :: rest => l == s && segMatch tpl rest
  | Seg.param :: tpl, _ :: rest => segMatch tpl rest
  | _, _ => false

/-- The GET route templates of app/main.py in registration order: /health,
/tasks, /tasks/\x7btask_id\x7d, /tasks/status/\x7bstatus\x7d,
/tasks/overdue. -/
def getRoutes : List (List Seg) :=
  [[Seg.lit "health"],
   [Seg.lit "tasks"],
   [Seg.lit "tasks", Seg.param],
   [Seg.lit "tasks", Seg.lit "status", Seg.param],
   [Seg.lit "tasks", Seg.lit "overdue"]]

/-- Starlette dispatches a request to the first registered route whose
template matches the path. -/
def firstMatch (routes : List (List Seg)) (path : List String) : Option (List Seg) :=
  routes.find? (fun r => segMatch r path)

/-- The handler of GET /tasks/\x7btask_id\x7d (main.py lines 20–25):
404 when the active-filtered lookup finds nothing. -/
def get_task_route (db : Store) (seg : String) : Response :=
  match parse_int seg with
  | none => Response.clientError 422
  | some task_id =>
    match get_task db task_id with
    | none => Response.clientError 404
    | some t => Response.okTask t

/-- Dispatch of a GET request: the first matching route template of
`getRoutes` wins and its handler runs. -/
def dispatchGet (db : Store) (now skip limit : Nat) (path : List String) : Response :=
  match firstMatch getRoutes path with
  | none => Response.clientError 404
  | some r =>
    if r = [Seg.lit "health"] then Response.okJson
    else if r = [Seg.lit "tasks"] then Response.okList (get_tasks db skip limit)
    else if r = [Seg.lit "tasks", Seg.param] then
      match path with
      | [_, seg] => get_task_route db seg
      | _ => Response.serverError
    else if r = [Seg.lit "tasks", Seg.lit "status", Seg.param] then
      match path with
      | [_, _, s] => tasks_by_status s db
      | _ => Response.serverError
    else Response.okList (get_overdue_tasks db now)

/-! ### Helper lemmas -/

theorem applyFields_spec (t : Task) (u : TaskUpdate) :
    applyFields t u =
      ⟨t.id, u.title.getD t.title, u.description.getD t.description,
       u.status.getD t.status, u.priority.getD t.priority,
       u.is_active.getD t.is_active, u.due_date.getD t.due_date,
       t.created_at, t.updated_at⟩ := by
  rcases u with ⟨ut, ud, us, up, udd, ua⟩
  rcases t with ⟨i, ti, d, s, p, a, dd, ca, ua2⟩
  cases ut <;> cases ud <;> cases us <;> cases up <;> cases udd <;> cases ua <;> rfl

theorem touch_id (old new : Task) (now : Nat) (h : new.id = old.id) :
    (touch old new now).id = old.id := by
  unfold touch
  split
  · rfl
  · exact h

theorem touch_fst_or (old new : Task) (now : Nat) :
    touch old new now = old ∨ touch old new now = { new with updated_at := now } := by
  unfold touch
  split
  · exact Or.inl rfl
  · exact Or.inr rfl

theorem complete_task_status (t : Task) (now : Nat) :
    (complete_task t now).status = "done" := by
  unfold complete_task touch
  split
  · rename_i heq
    have := congrArg Task.status heq
    simpa using this.symm
  · rfl

theorem complete_task_is_active (t : Task) (now : Nat) :
    (complete_task t now).is_active = t.is_active := by
  unfold complete_task touch
  split
  · rfl
  · rfl

theorem complete_task_id (t : Task) (now : Nat) :
    (complete_task t now).id = t.id := by
  unfold complete_task touch
  split
  · rfl
  · rfl

theorem soft_delete_task_is_active (t : Task) (now : Nat) :
    (soft_delete_task t now).is_active = false := by
  unfold soft_delete_task touch
  split
  · rename_i heq
    have := congrArg Task.is_active heq
    simpa using this.symm
  · rfl

theorem soft_delete_task_id (t : Task) (now : Nat) :
    (soft_delete_task t now).id = t.id := by
  unfold soft_delete_task touch
  split
  · rfl
  · rfl

theorem update_task_id (t : Task) (u : TaskUpdate) (now : Nat) :
    (update_task t u now).id = t.id := by
  unfold update_task
  exact touch_id t (applyFields t u) now (by rw [applyFields_spec])

theorem update_task_status (t : Task) (u : TaskUpdate) (now : Nat) :
    (update_task t u now).status = u.status.getD t.status := by
  unfold update_task touch
  split
  · rename_i heq
    have := congrArg Task.status heq
    rw [applyFields_spec] at this
    exact this.symm
  · rw [applyFields_spec]

theorem update_task_priority (t : Task) (u : TaskUpdate) (now : Nat) :
    (update_task t u now).priority = u.priority.getD t.priority := by
  unfold update_task touch
  split
  · rename_i heq
    have := congrArg Task.priority heq
    rw [applyFields_spec] at this
    exact this.symm
  · rw [applyFields_spec]

theorem update_task_due_date (t : Task) (u : TaskUpdate) (now : Nat) :
    (update_task t u now).due_date = u.due_date.getD t.due_date := by
  unfold update_task touch
  split
  · rename_i heq
    have := congrArg Task.due_date heq
    rw [applyFields_spec] at this
    exact this.symm
  · rw [applyFields_spec]

theorem update_task_title (t : Task) (u : TaskUpdate) (now : Nat) :
    (update_task t u now).title = u.title.getD t.title := by
  unfold update_task touch
  split
  · rename_i heq
    have := congrArg Task.title heq
    rw [applyFields_spec] at this
    exact this.symm
  · rw [applyFields_spec]

theorem update_task_description (t : Task) (u : TaskUpdate) (now : Nat) :
    (update_task t u now).description = u.description.getD t.description := by
  unfold update_task touch
  split
  · rename_i heq
    have := congrArg Task.description heq
    rw [applyFields_spec] at this
    exact this.symm
  · rw [applyFields_spec]

theorem update_task_is_active (t : Task) (u : TaskUpdate) (now : Nat) :
    (update_task t u now).is_active = u.is_active.getD t.is_active := by
  unfold update_task touch
  split
  · rename_i heq
    have := congrArg Task.is_active heq
    rw [applyFields_spec] at this
    exact this.symm
  · rw [applyFields_spec]

theorem update_task_created_at (t : Task) (u : TaskUpdate) (now : Nat) :
    (update_task t u now).created_at = t.created_at := by
  unfold update_task touch
  split
  · rfl
  · rw [applyFields_spec]

/-! ### Claim theorems -/

/-- C1: a task of the store is returned by get_overdue_tasks at an instant
`now` iff its due_date is set and strictly before `now`, it is active, and
its status is not "done"; in particular a done task with a past due_date
never appears. -/
theorem overdue_membership (db : Store) (t : Task) (now : Nat) (ht : t ∈ db) :
    t ∈ get_overdue_tasks db now ↔
      (∃ d, t.due_date = some d ∧ d < now) ∧ t.is_active = true ∧
        t.status ≠ "done" := by
  rw [get_overdue_tasks, List.mem_filter]
  cases hd : t.due_date with
  | none => simp [hd, due_date_lt, ht]
  | some d => simp [hd, due_date_lt, ht, and_assoc]

theorem overdue_membership_witness :
    (⟨1, "Tarea vencida", none, "pending", 2, true, some 5, 0, 0⟩ : Task) ∈
        get_overdue_tasks [⟨1, "Tarea vencida", none, "pending", 2, true, some 5, 0, 0⟩] 9 ↔
      (∃ d, (⟨1, "Tarea vencida", none, "pending", 2, true, some 5, 0, 0⟩ : Task).due_date = some d ∧ d < 9) ∧
        (⟨1, "Tarea vencida", none, "pending", 2, true, some 5, 0, 0⟩ : Task).is_active = true ∧
        (⟨1, "Tarea vencida", none, "pending", 2, true, some 5, 0, 0⟩ : Task).status ≠ "done" :=
  overdue_membership _ _ 9 (List.mem_singleton.mpr rfl)

/-- C7: completing an active task yields status "done" whatever the prior
status was, and a second complete reproduces the same end state. -/
theorem complete_idempotent (t : Task) (n1 n2 : Nat) (_h : t.is_active = true) :
    (complete_task t n1).status = "done" ∧
    complete_task (complete_task t n1) n2 = complete_task t n1 := by
  have hr := complete_task_status t n1
  refine ⟨hr, ?_⟩
  have key : ∀ r : Task, r.status = "done" → complete_task r n2 = r := by
    intro r hs
    have hfix : ({ r with status := "done" } : Task) = r := by
      rcases r with ⟨i, ti, d, s, p, a, dd, ca, ua⟩
      simp only at hs
      simp [hs]
    unfold complete_task touch
    rw [hfix]
    simp
  exact key _ hr

theorem complete_idempotent_witness :
    (complete_task ⟨1, "Tarea de prueba", none, "pending", 2, true, none, 0, 0⟩ 4).status = "done" ∧
    complete_task (complete_task ⟨1, "Tarea de prueba", none, "pending", 2, true, none, 0, 0⟩ 4) 7 =
      complete_task ⟨1, "Tarea de prueba", none, "pending", 2, true, none, 0, 0⟩ 4 :=
  complete_idempotent ⟨1, "Tarea de prueba", none, "pending", 2, true, none, 0, 0⟩ 4 7 rfl

/-- C9 as stated is false: soft-deleting an active task refreshes
`updated_at` through the `onupdate=datetime.utcnow` hook of models.py, so
not every field other than is_active is left unchanged.  Concretely, a task
whose updated_at is 0 is soft-deleted at instant 5 and ends with
updated_at 5. -/
theorem soft_delete_updated_at_cex :
    (soft_delete_task ⟨1, "Tarea de prueba", none, "pending", 2, true, none, 0, 0⟩ 5).updated_at ≠
      (⟨1, "Tarea de prueba", none, "pending", 2, true, none, 0, 0⟩ : Task).updated_at := by
  decide

/-- C9 (amended): soft-deleting an active task sets is_active to false and
leaves id, title, description, status, priority, due_date and created_at
unchanged; updated_at is refreshed to the commit instant by the store's
on-update hook. -/
theorem soft_delete_frame (t : Task) (now : Nat) (h : t.is_active = true) :
    soft_delete_task t now =
      ⟨t.id, t.title, t.description, t.status, t.priority, false, t.due_date,
       t.created_at, now⟩ := by
  unfold soft_delete_task touch
  split
  · rename_i heq
    have := congrArg Task.is_active heq
    simp [h] at this
  · rfl

theorem soft_delete_frame_witness :
    soft_delete_task ⟨1, "Tarea de prueba", none, "pending", 2, true, none, 0, 0⟩ 5 =
      ⟨1, "Tarea de prueba", none, "pending", 2, false, none, 0, 5⟩ :=
  soft_delete_frame ⟨1, "Tarea de prueba", none, "pending", 2, true, none, 0, 0⟩ 5 rfl

/-- C8: a patch carrying only the title changes at most title and
updated_at — status, priority, due_date, description, is_active, id and
created_at keep their prior values — and in general a field absent from the
patch retains its prior value. -/
theorem update_frame (t : Task) (u : TaskUpdate) (now : Nat) (v : String)
    (hs : u.status = none) (hp : u.priority = none) (hd : u.due_date = none) :
    (update_task t ⟨some v, none, none, none, none, none⟩ now).status = t.status ∧
    (update_task t ⟨some v, none, none, none, none, none⟩ now).priority = t.priority ∧
    (update_task t ⟨some v, none, none, none, none, none⟩ now).due_date = t.due_date ∧
    (update_task t ⟨some v, none, none, none, none, none⟩ now).description = t.description ∧
    (update_task t ⟨some v, none, none, none, none, none⟩ now).is_active = t.is_active ∧
    (update_task t ⟨some v, none, none, none, none, none⟩ now).id = t.id ∧
    (update_task t ⟨some v, none, none, none, none, none⟩ now).created_at = t.created_at ∧
    (update_task t ⟨some v, none, none, none, none, none⟩ now).title = v ∧
    (update_task t u now).status = t.status ∧
    (update_task t u now).priority = t.priority ∧
    (update_task t u now).due_date = t.due_date := by
  simp [update_task_status, update_task_priority, update_task_due_date,
    update_task_description, update_task_is_active, update_task_id,
    update_task_created_at, update_task_title, hs, hp, hd]

theorem update_frame_witness :
    (update_task ⟨1, "Tarea de prueba", none, "pending", 2, true, none, 0, 0⟩
        ⟨some "Actualizada", none, none, none, none, none⟩ 5).status = "pending" ∧
    (update_task ⟨1, "Tarea de prueba", none, "pending", 2, true, none, 0, 0⟩
        ⟨some "Actualizada", none, none, none, none, none⟩ 5).priority = 2 ∧
    (update_task ⟨1, "Tarea de prueba", none, "pending", 2, true, none, 0, 0⟩
        ⟨some "Actualizada", none, none, none, none, none⟩ 5).due_date = none ∧
    (update_task ⟨1, "Tarea de prueba", none, "pending", 2, true, none, 0, 0⟩
        ⟨some "Actualizada", none, none, none, none, none⟩ 5).description = none ∧
    (update_task ⟨1, "Tarea de prueba", none, "pending", 2, true, none, 0, 0⟩
        ⟨some "Actualizada", none, none, none, none, none⟩ 5).is_active = true ∧
    (update_task ⟨1, "Tarea de prueba", none, "pending", 2, true, none, 0, 0⟩
        ⟨some "Actualizada", none, none, none, none, none⟩ 5).id = 1 ∧
    (update_task ⟨1, "Tarea de prueba", none, "pending", 2, true, none, 0, 0⟩
        ⟨some "Actualizada", none, none, none, none, none⟩ 5).created_at = 0 ∧
    (update_task ⟨1, "Tarea de prueba", none, "pending", 2, true, none, 0, 0⟩
        ⟨some "Actualizada", none, none, none, none, none⟩ 5).title = "Actualizada" ∧
    (update_task ⟨1, "Tarea de prueba", none, "pending", 2, true, none, 0, 0⟩
        ⟨some "Actualizada", none, none, none, none, none⟩ 5).status = "pending" ∧
    (update_task ⟨1, "Tarea de prueba", none, "pending", 2, true, none, 0, 0⟩
        ⟨some "Actualizada", none, none, none, none, none⟩ 5).priority = 2 ∧
    (update_task ⟨1, "Tarea de prueba", none, "pending", 2, true, none, 0, 0⟩
        ⟨some "Actualizada", none, none, none, none, none⟩ 5).due_date = none :=
  update_frame ⟨1, "Tarea de prueba", none, "pending", 2, true, none, 0, 0⟩
    ⟨some "Actualizada", none, none, none, none, none⟩ 5 "Actualizada" rfl rfl rfl

/-- C2 is false as stated: the partial-update payload setting priority to
99 violates the 1–5 constraint, yet TaskUpdate validation accepts it, the
write reaches the data-access layer, and the stored task changes. -/
theorem update_no_validation_cex :
    validate_TaskUpdate ⟨none, none, none, some 99, none, none⟩ =
      Except.ok ⟨none, none, none, some 99, none, none⟩ ∧
    (update_task ⟨1, "Tarea de prueba", none, "pending", 2, true, none, 0, 0⟩
        ⟨none, none, none, some 99, none, none⟩ 5).priority = 99 ∧
    update_task ⟨1, "Tarea de prueba", none, "pending", 2, true, none, 0, 0⟩
        ⟨none, none, none, some 99, none, none⟩ 5 ≠
      ⟨1, "Tarea de prueba", none, "pending", 2, true, none, 0, 0⟩ := by
  refine ⟨rfl, ?_, ?_⟩ <;> decide

/-- C2 (amended): schemas.TaskUpdate declares no field constraint, so every
well-typed partial-update payload passes validation, and a priority carried
by the payload — in range or not — is written unchanged to the stored
task. -/
theorem update_no_validation (t : Task) (u : TaskUpdate) (now : Nat) (p : Int)
    (hp : u.priority = some p) :
    validate_TaskUpdate u = Except.ok u ∧ (update_task t u now).priority = p :=
  ⟨rfl, by simp [update_task_priority, hp]⟩

theorem update_no_validation_witness :
    validate_TaskUpdate ⟨none, none, none, some 99, none, none⟩ =
      Except.ok ⟨none, none, none, some 99, none, none⟩ ∧
    (update_task ⟨2, "Otra tarea", none, "pending", 3, true, none, 0, 0⟩
        ⟨none, none, none, some 99, none, none⟩ 8).priority = 99 :=
  update_no_validation ⟨2, "Otra tarea", none, "pending", 3, true, none, 0, 0⟩
    ⟨none, none, none, some 99, none, none⟩ 8 99 rfl

/-- C4: for a path status outside the enumeration the handler never
produces the 400 response the spec demands: the parameter `status` shadows
the `status` module imported from fastapi, so building the HTTPException
raises AttributeError and the request ends in a 500 server error; for the
three enumerated values the handler answers 200 with the active tasks of
that status. -/
theorem tasks_by_status_eval (db : Store) :
    tasks_by_status "archived" db = Response.serverError ∧
    tasks_by_status "pending" db = Response.okList (get_tasks_by_status db "pending") ∧
    tasks_by_status "in_progress" db = Response.okList (get_tasks_by_status db "in_progress") ∧
    tasks_by_status "done" db = Response.okList (get_tasks_by_status db "done") :=
  ⟨rfl, rfl, rfl, rfl⟩

/-- C5: GET /tasks/overdue is never dispatched to the overdue handler:
main.py registers /tasks/\x7btask_id\x7d first, the path matches that
template, and the segment "overdue" fails int path-parameter validation, so
every such request answers 422 instead of 200 with the overdue array. -/
theorem overdue_route_shadowed (db : Store) (now skip limit : Nat) :
    dispatchGet db now skip limit ["tasks", "overdue"] = Response.clientError 422 ∧
    firstMatch getRoutes ["tasks", "overdue"] = some [Seg.lit "tasks", Seg.param] :=
  ⟨rfl, rfl⟩

theorem softDeleted_inactive (db : Store) (i : Int) (now : Nat) :
    ∀ t' ∈ updateRow db i (fun t => soft_delete_task t now),
      t'.id = i → t'.is_active = false := by
  intro t' ht' hid
  rw [updateRow, List.mem_map] at ht'
  obtain ⟨t, htdb, rfl⟩ := ht'
  by_cases hc : (t.id == i) = true
  · simp only [hc, if_true]
    exact soft_delete_task_is_active t now
  · simp only [hc, if_false] at hid ⊢
    exact absurd hid (by simpa using hc)

/-- C6: after soft-deleting the task with a given id, it is absent from
get_task, get_tasks (any skip and limit), get_tasks_by_status (any status)
and get_overdue_tasks (any later instant), while an unfiltered scan of the
table still holds a row with that id and is_active = false. -/
theorem soft_delete_excludes (db : Store) (i : Int) (now now2 skip limit : Nat)
    (s : String) (hex : ∃ t ∈ db, t.id = i) :
    get_task (updateRow db i (fun t => soft_delete_task t now)) i = none ∧
    (get_tasks (updateRow db i (fun t => soft_delete_task t now)) skip limit).all
      (fun t' => t'.id != i) = true ∧
    (get_tasks_by_status (updateRow db i (fun t => soft_delete_task t now)) s).all
      (fun t' => t'.id != i) = true ∧
    (get_overdue_tasks (updateRow db i (fun t => soft_delete_task t now)) now2).all
      (fun t' => t'.id != i) = true ∧
    (updateRow db i (fun t => soft_delete_task t now)).any
      (fun t' => t'.id == i && t'.is_active == false) = true := by
  have key := softDeleted_inactive db i now
  refine ⟨?_, ?_, ?_, ?_, ?_⟩
  · rw [get_task, List.head?_eq_none_iff, List.filter_eq_nil_iff]
    intro t' ht' hp
    rw [Bool.and_eq_true, beq_iff_eq] at hp
    have := key t' ht' hp.1
    rw [this] at hp
    exact Bool.false_ne_true hp.2
  · rw [List.all_eq_true]
    intro t' ht'
    have h1 : t' ∈ (updateRow db i (fun t => soft_delete_task t now)).filter
        (fun t => t.is_active) :=
      List.mem_of_mem_drop (List.mem_of_mem_take ht')
    rw [List.mem_filter] at h1
    rw [bne_iff_ne]
    intro hid
    have := key t' h1.1 hid
    rw [this] at h1
    exact Bool.false_ne_true h1.2
  · rw [List.all_eq_true]
    intro t' ht'
    rw [get_tasks_by_status, List.mem_filter, Bool.and_eq_true] at ht'
    rw [bne_iff_ne]
    intro hid
    have := key t' ht'.1 hid
    rw [this] at ht'
    exact Bool.false_ne_true ht'.2.2
  · rw [List.all_eq_true]
    intro t' ht'
    rw [get_overdue_tasks, List.mem_filter, Bool.and_eq_true, Bool.and_eq_true,
      Bool.and_eq_true] at ht'
    rw [bne_iff_ne]
    intro hid
    have := key t' ht'.1 hid
    rw [this] at ht'
    exact Bool.false_ne_true ht'.2.1.2
  · rw [List.any_eq_true]
    obtain ⟨t, htdb, hid⟩ := hex
    refine ⟨soft_delete_task t now, ?_, ?_⟩
    · rw [updateRow, List.mem_map]
      refine ⟨t, htdb, ?_⟩
      have : (t.id == i) = true := beq_iff_eq.mpr hid
      simp [this]
    · rw [Bool.and_eq_true, beq_iff_eq, beq_iff_eq]
      exact ⟨by rw [soft_delete_task_id]; exact hid, soft_delete_task_is_active t now⟩

theorem soft_delete_excludes_witness :
    get_task (updateRow [⟨1, "Tarea vencida", none, "pending", 2, true, some 5, 0, 0⟩] 1
        (fun t => soft_delete_task t 6)) 1 = none ∧
    (get_tasks (updateRow [⟨1, "Tarea vencida", none, "pending", 2, true, some 5, 0, 0⟩] 1
        (fun t => soft_delete_task t 6)) 0 50).all (fun t' => t'.id != 1) = true ∧
    (get_tasks_by_status (updateRow [⟨1, "Tarea vencida", none, "pending", 2, true, some 5, 0, 0⟩] 1
        (fun t => soft_delete_task t 6)) "pending").all (fun t' => t'.id != 1) = true ∧
    (get_overdue_tasks (updateRow [⟨1, "Tarea vencida", none, "pending", 2, true, some 5, 0, 0⟩] 1
        (fun t => soft_delete_task t 6)) 9).all (fun t' => t'.id != 1) = true ∧
    (updateRow [⟨1, "Tarea vencida", none, "pending", 2, true, some 5, 0, 0⟩] 1
        (fun t => soft_delete_task t 6)).any
      (fun t' => t'.id == 1 && t'.is_active == false) = true :=
  soft_delete_excludes [⟨1, "Tarea vencida", none, "pending", 2, true, some 5, 0, 0⟩]
    1 6 9 0 50 "pending"
    ⟨⟨1, "Tarea vencida", none, "pending", 2, true, some 5, 0, 0⟩,
      List.mem_singleton.mpr rfl, rfl⟩

theorem soft_delete_task_status (t : Task) (now : Nat) :
    (soft_delete_task t now).status = t.status := by
  unfold soft_delete_task touch
  split
  · rfl
  · rfl

theorem validate_TaskCreate_ok_eq (c c2 : TaskCreate)
    (h : validate_TaskCreate c = Except.ok c2) : c2 = c := by
  unfold validate_TaskCreate at h
  split at h
  · exact absurd h (by simp)
  · split at h
    · exact absurd h (by simp)
    · split at h
      · exact absurd h (by simp)
      · injection h with h2
        exact h2.symm

theorem validate_TaskCreate_status (c c2 : TaskCreate)
    (h : validate_TaskCreate c = Except.ok c2) : validStatus c.status = true := by
  unfold validate_TaskCreate at h
  split at h
  · exact absurd h (by simp)
  · split at h
    · exact absurd h (by simp)
    · rename_i h2
      simpa using h2

theorem get_task_some (db : Store) (j : Int) (t0 : Task)
    (h : get_task db j = some t0) :
    t0 ∈ db ∧ t0.id = j ∧ t0.is_active = true := by
  rw [get_task] at h
  cases hf : db.filter (fun t => t.id == j && t.is_active) with
  | nil => rw [hf] at h; exact absurd h (by simp)
  | cons a as =>
    rw [hf] at h
    have ha : a = t0 := by simpa using h
    subst ha
    have : a ∈ db.filter (fun t => t.id == j && t.is_active) := by
      rw [hf]; exact List.mem_cons_self a as
    rw [List.mem_filter, Bool.and_eq_true, beq_iff_eq] at this
    exact ⟨this.1, this.2.1, this.2.2⟩

theorem stepOp_preserves_status (db : DB) (op : Op)
    (hdb : db.store.all (fun t => validStatus t.status) = true)
    (hop : GoodOp op = true) :
    (stepOp db op).store.all (fun t => validStatus t.status) = true := by
  cases op with
  | create c now =>
    show (applyCreate db c now).store.all (fun t => validStatus t.status) = true
    rw [applyCreate]
    cases hv : validate_TaskCreate c with
    | error e => exact hdb
    | ok c2 =>
      simp only
      rw [List.all_append, Bool.and_eq_true]
      refine ⟨hdb, ?_⟩
      simp only [List.all_cons, List.all_nil, Bool.and_true]
      rw [validate_TaskCreate_ok_eq c c2 hv]
      exact validate_TaskCreate_status c c2 hv
  | update j u now =>
    show (match get_task db.store j with
      | none => db
      | some _ => ⟨updateRow db.store j (fun t => update_task t u now), db.next_id⟩).store.all
        (fun t => validStatus t.status) = true
    cases hg : get_task db.store j with
    | none => exact hdb
    | some t0 =>
      simp only
      rw [List.all_eq_true]
      intro t' ht'
      rw [updateRow, List.mem_map] at ht'
      obtain ⟨t, htdb, rfl⟩ := ht'
      rw [List.all_eq_true] at hdb
      by_cases hc : (t.id == j) = true
      · simp only [hc, if_true]
        rw [update_task_status]
        cases hus : u.status with
        | none => simpa using hdb t htdb
        | some s2 =>
          rw [GoodOp, hus] at hop
          simpa using hop
      · simp only [hc, if_false]
        exact hdb t htdb
  | complete j now =>
    show (match get_task db.store j with
      | none => db
      | some _ => ⟨updateRow db.store j (fun t => complete_task t now), db.next_id⟩).store.all
        (fun t => validStatus t.status) = true
    cases hg : get_task db.store j with
    | none => exact hdb
    | some t0 =>
      simp only
      rw [List.all_eq_true]
      intro t' ht'
      rw [updateRow, List.mem_map] at ht'
      obtain ⟨t, htdb, rfl⟩ := ht'
      rw [List.all_eq_true] at hdb
      by_cases hc : (t.id == j) = true
      · simp only [hc, if_true]
        rw [complete_task_status]
        decide
      · simp only [hc, if_false]
        exact hdb t htdb
  | softDelete j now =>
    show (match get_task db.store j with
      | none => db
      | some _ => ⟨updateRow db.store j (fun t => soft_delete_task t now), db.next_id⟩).store.all
        (fun t => validStatus t.status) = true
    cases hg : get_task db.store j with
    | none => exact hdb
    | some t0 =>
      simp only
      rw [List.all_eq_true]
      intro t' ht'
      rw [updateRow, List.mem_map] at ht'
      obtain ⟨t, htdb, rfl⟩ := ht'
      rw [List.all_eq_true] at hdb
      by_cases hc : (t.id == j) = true
      · simp only [hc, if_true]
        rw [soft_delete_task_status]
        exact hdb t htdb
      · simp only [hc, if_false]
        exact hdb t htdb

theorem runOps_preserves_status (ops : List Op) : ∀ db : DB,
    ops.all GoodOp = true →
    db.store.all (fun t => validStatus t.status) = true →
    (runOps db ops).store.all (fun t => validStatus t.status) = true := by
  induction ops with
  | nil => exact fun db _ hdb => hdb
  | cons op rest ih =>
    intro db hops hdb
    rw [List.all_cons, Bool.and_eq_true] at hops
    exact ih (stepOp db op) hops.2 (stepOp_preserves_status db op hdb hops.1)

/-- C3 is false as stated: through the exposed interface — create a valid
task, then update it with a payload whose status is "archived" — the store
reaches a state holding a task whose status lies outside the enumeration,
because schemas.TaskUpdate does not constrain the status field. -/
theorem status_enum_cex :
    (runOps dbInit
      [Op.create ⟨"Tarea de estado", none, "pending", 2, none⟩ 0,
       Op.update 1 ⟨none, none, some "archived", none, none, none⟩ 1]).store.any
      (fun t => !(validStatus t.status)) = true := by
  decide

/-- C3 (amended): in every store state reached from the empty database
through the exposed operations, every task's status is one of "pending",
"in_progress", "done" — provided each update payload that sets the status
field sets it to a value of the enumeration, a constraint the TaskUpdate
schema itself does not enforce. -/
theorem status_enum_inv (ops : List Op) (hops : ops.all GoodOp = true) :
    (runOps dbInit ops).store.all (fun t => validStatus t.status) = true :=
  runOps_preserves_status ops dbInit hops rfl

theorem status_enum_inv_witness :
    (runOps dbInit
      [Op.create ⟨"Tarea de estado", none, "pending", 2, none⟩ 0,
       Op.update 1 ⟨none, none, some "in_progress", none, none, none⟩ 1,
       Op.complete 1 2,
       Op.softDelete 1 3]).store.all (fun t => validStatus t.status) = true :=
  status_enum_inv
    [Op.create ⟨"Tarea de estado", none, "pending", 2, none⟩ 0,
     Op.update 1 ⟨none, none, some "in_progress", none, none, none⟩ 1,
     Op.complete 1 2,
     Op.softDelete 1 3] (by decide)

theorem inactive_step (db : DB) (op : Op) (i : Int)
    (hlt : i < db.next_id)
    (hin : ∀ u ∈ db.store, u.id = i → u.is_active = false) :
    i < (stepOp db op).next_id ∧
    (∀ u ∈ (stepOp db op).store, u.id = i → u.is_active = false) := by
  have hnof : get_task db.store i = none ∨
      ∀ t0 : Task, get_task db.store i ≠ some t0 := by
    cases hg : get_task db.store i with
    | none => exact Or.inl rfl
    | some t0 =>
      obtain ⟨hmem, hid, hact⟩ := get_task_some db.store i t0 hg
      rw [hin t0 hmem hid] at hact
      exact absurd hact (by simp)
  have hnone : get_task db.store i = none := by
    rcases hnof with h | h
    · exact h
    · cases hg : get_task db.store i with
      | none => rfl
      | some t0 => exact absurd hg (h t0)
  cases op with
  | create c now =>
    show i < (applyCreate db c now).next_id ∧
      ∀ u ∈ (applyCreate db c now).store, u.id = i → u.is_active = false
    rw [applyCreate]
    cases hv : validate_TaskCreate c with
    | error e => exact ⟨hlt, hin⟩
    | ok c2 =>
      refine ⟨?_, ?_⟩
      · show i < db.next_id + 1
        omega
      · intro u hu hid
        have hu2 : u ∈ db.store ++
            [(⟨db.next_id, c2.title, c2.description, c2.status, c2.priority,
              true, c2.due_date, now, now⟩ : Task)] := hu
        rw [List.mem_append] at hu2
        rcases hu2 with hu2 | hu2
        · exact hin u hu2 hid
        · rw [List.mem_singleton] at hu2
          subst hu2
          exfalso
          have hdi : db.next_id = i := hid
          omega
  | update j u now =>
    show i < (match get_task db.store j with
        | none => db
        | some _ => (⟨updateRow db.store j (fun t => update_task t u now),
            db.next_id⟩ : DB)).next_id ∧
      ∀ u' ∈ (match get_task db.store j with
        | none => db
        | some _ => (⟨updateRow db.store j (fun t => update_task t u now),
            db.next_id⟩ : DB)).store, u'.id = i → u'.is_active = false
    cases hg : get_task db.store j with
    | none => exact ⟨hlt, hin⟩
    | some t0 =>
      have hji : j ≠ i := by
        intro h
        rw [h, hnone] at hg
        exact absurd hg (by simp)
      refine ⟨hlt, ?_⟩
      intro u' hu' hid
      have hu2 : u' ∈ updateRow db.store j (fun t => update_task t u now) := hu'
      rw [updateRow, List.mem_map] at hu2
      obtain ⟨t, htdb, rfl⟩ := hu2
      by_cases hc : (t.id == j) = true
      · rw [if_pos hc] at hid ⊢
        rw [update_task_id] at hid
        exact absurd (beq_iff_eq.mp hc) (by rw [hid]; exact fun h => hji h.symm)
      · rw [if_neg (by simpa using hc)] at hid ⊢
        exact hin t htdb hid
  | complete j now =>
    show i < (match get_task db.store j with
        | none => db
        | some _ => (⟨updateRow db.store j (fun t => complete_task t now),
            db.next_id⟩ : DB)).next_id ∧
      ∀ u' ∈ (match get_task db.store j with
        | none => db
        | some _ => (⟨updateRow db.store j (fun t => complete_task t now),
            db.next_id⟩ : DB)).store, u'.id = i → u'.is_active = false
    cases hg : get_task db.store j with
    | none => exact ⟨hlt, hin⟩
    | some t0 =>
      have hji : j ≠ i := by
        intro h
        rw [h, hnone] at hg
        exact absurd hg (by simp)
      refine ⟨hlt, ?_⟩
      intro u' hu' hid
      have hu2 : u' ∈ updateRow db.store j (fun t => complete_task t now) := hu'
      rw [updateRow, List.mem_map] at hu2
      obtain ⟨t, htdb, rfl⟩ := hu2
      by_cases hc : (t.id == j) = true
      · rw [if_pos hc] at hid ⊢
        rw [complete_task_id] at hid
        exact absurd (beq_iff_eq.mp hc) (by rw [hid]; exact fun h => hji h.symm)
      · rw [if_neg (by simpa using hc)] at hid ⊢
        exact hin t htdb hid
  | softDelete j now =>
    show i < (match get_task db.store j with
        | none => db
        | some _ => (⟨updateRow db.store j (fun t => soft_delete_task t now),
            db.next_id⟩ : DB)).next_id ∧
      ∀ u' ∈ (match get_task db.store j with
        | none => db
        | some _ => (⟨updateRow db.store j (fun t => soft_delete_task t now),
            db.next_id⟩ : DB)).store, u'.id = i → u'.is_active = false
    cases hg : get_task db.store j with
    | none => exact ⟨hlt, hin⟩
    | some t0 =>
      refine ⟨hlt, ?_⟩
      intro u' hu' hid
      have hu2 : u' ∈ updateRow db.store j (fun t => soft_delete_task t now) := hu'
      rw [updateRow, List.mem_map] at hu2
      obtain ⟨t, htdb, rfl⟩ := hu2
      by_cases hc : (t.id == j) = true
      · rw [if_pos hc]
        exact soft_delete_task_is_active t now
      · rw [if_neg (by simpa using hc)] at hid ⊢
        exact hin t htdb hid

/-- C10: once a row is inactive, no sequence of requests through the
exposed interface — create, update, complete, soft-delete, each mutating
handler fetching through the active-filtered get_task, and create only
inserting fresh ids — ever turns a row with that id active again, even
though the TaskUpdate schema accepts an is_active field. -/
theorem inactive_permanent (ops : List Op) (db : DB) (i : Int)
    (hlt : i < db.next_id)
    (hin : ∀ u ∈ db.store, u.id = i → u.is_active = false) :
    ((runOps db ops).store.all
      (fun t' => t'.id != i || t'.is_active == false)) = true := by
  induction ops generalizing db with
  | nil =>
    rw [List.all_eq_true]
    intro t' ht'
    rw [Bool.or_eq_true, bne_iff_ne, beq_iff_eq]
    by_cases h : t'.id = i
    · exact Or.inr (hin t' ht' h)
    · exact Or.inl h
  | cons op rest ih =>
    obtain ⟨h1, h2⟩ := inactive_step db op i hlt hin
    exact ih (stepOp db op) h1 h2

theorem inactive_permanent_witness :
    ((runOps ⟨[⟨1, "Tarea borrada", none, "pending", 2, false, none, 0, 0⟩], 2⟩
        [Op.update 1 ⟨none, none, none, none, none, some true⟩ 5,
         Op.complete 1 6,
         Op.create ⟨"Nueva tarea", none, "pending", 3, none⟩ 7]).store.all
      (fun t' => t'.id != 1 || t'.is_active == false)) = true :=
  inactive_permanent
    [Op.update 1 ⟨none, none, none, none, none, some true⟩ 5,
     Op.complete 1 6,
     Op.create ⟨"Nueva tarea", none, "pending", 3, none⟩ 7]
    ⟨[⟨1, "Tarea borrada", none, "pending", 2, false, none, 0, 0⟩], 2⟩ 1
    (by decide) (by decide)

end TaskApp
